import Mathlib

/-!
Shallow embedding of src/src/atoms/p2pAtom.tsx: the wire message model, the
challenge-response data handler (validateConnection), the init slot-probing
loop, the outbound connect loop, and the coordinator state machine
(init / connect / destroy / fatal-error handler).
-/

namespace P2pTrade

/-- Wire-level strings exchanged over a channel. A plain string (`raw`) covers
nonces and arbitrary payloads; `sigEnc` is the base58 encoding of a detached
signature (the signed message together with the signer's public key); `pkEnc`
is the base58 encoding of a public key. Treating encoded values as abstract
tokens embeds bs58 encode/decode without modelling byte-level base58. -/
inductive WStr : Type where
  | raw : String → WStr
  | sigEnc : WStr → Nat → WStr
  | pkEnc : Nat → WStr
deriving DecidableEq, Repr

/-- JavaScript falsiness check used by `if (!payload.message) return`:
only the empty string is falsy among the strings that can arrive. -/
def WStr.isEmpty : WStr → Bool
  | .raw s => s == ""
  | _ => false

/-- Modelled from the spec: the device public key derived from a secret key by
the external key provider (tweetnacl / @solana keypairs are dependencies, not
repository code). Idealised as the identity embedding of key material. -/
def pubOf (sk : Nat) : Nat := sk

/-- Modelled from the spec: nacl.sign.detached — an external library call.
Idealised signature scheme: a detached signature is the pair of the signed
message and the signer's public key. -/
def signDetached (m : WStr) (sk : Nat) : WStr × Nat := (m, pubOf sk)

/-- Modelled from the spec: nacl.sign.detached.verify — an external library
call. In the idealised scheme a signature verifies against message `m` and
public key `pk` exactly when it was produced for `m` by the key behind `pk`. -/
def verifyDetached (m : WStr) (sig : WStr × Nat) (pk : Nat) : Bool :=
  sig.1 == m && sig.2 == pk

/-- bs58.encode applied to a detached signature. -/
def bs58EncodeSig (sig : WStr × Nat) : WStr := .sigEnc sig.1 sig.2

/-- bs58.decode applied to a wire string expected to hold a signature;
`none` models the decode (or signature-size) exception path. -/
def bs58DecodeSig : WStr → Option (WStr × Nat)
  | .sigEnc m p => some (m, p)
  | _ => none

/-- new PublicKey(s).toBytes(): `none` models the constructor throwing on a
string that is not a valid public-key encoding. -/
def decodePk : WStr → Option Nat
  | .pkEnc p => some p
  | _ => none

/-- Incoming data events on a channel: the two tagged message kinds of the
wire contract, plus `malformed` for any payload whose type tag is neither. -/
inductive WireData : Type where
  | challenge : WStr → WireData
  | verification : WStr → WireData
  | malformed : WireData
deriving DecidableEq, Repr

/-- Observable effect of one run of the data handler: the reply sent (if any),
the verdict passed to onVerify (if any), and whether the channel was closed. -/
structure HandlerEffect : Type where
  sent : Option WireData
  verdict : Option Bool
  closed : Bool
deriving DecidableEq, Repr

/-- The handler does nothing: no reply, no verdict, channel left open. -/
def noEffect : HandlerEffect := ⟨none, none, false⟩

/-- The data handler installed by validateConnection (p2pAtom.tsx lines
66-100). `store` is the decoded device secret key found in localStorage under
device_key_{myPubkey} (`none` when absent), `nonce` the locally generated
random string, `targetDevicePubkey` the claimed remote key string. The catch
block (close, no verdict) is reached when bs58.decode or the PublicKey
constructor throws in the verification branch. -/
def handleData (store : Option Nat) (nonce : String) (targetDevicePubkey : WStr) :
    WireData → HandlerEffect
  | .challenge m =>
    match store with
    | none => noEffect
    | some sk =>
      { sent := some (.verification (bs58EncodeSig (signDetached m sk))),
        verdict := none, closed := false }
  | .verification m =>
    if m.isEmpty then noEffect
    else
      match bs58DecodeSig m, decodePk targetDevicePubkey with
      | some sig, some pk =>
        { sent := none, verdict := some (verifyDetached (.raw nonce) sig pk),
          closed := false }
      | some _, none => { sent := none, verdict := none, closed := true }
      | none, _ => { sent := none, verdict := none, closed := true }
  | .malformed => noEffect

/-- The open handler of validateConnection: send Challenge with the local nonce. -/
def onOpenSend (nonce : String) : WireData := .challenge (.raw nonce)

/-- Deterministic network identifier: pygmy_{devicePubkey}_{slot}. -/
def pygmyId (devicePubkey : String) (slot : Nat) : String :=
  "pygmy_" ++ devicePubkey ++ "_" ++ toString slot

/-- A bound peer endpoint: its identifier, whether destroy() was called, and
which handlers are currently registered on it. -/
structure Peer : Type where
  id : String
  destroyed : Bool
  errorHandlerOn : Bool
  connectionHandlerOn : Bool
deriving DecidableEq, Repr

/-- A freshly constructed Peer bound at a slot: probing handlers only. -/
def mkPeer (dev : String) (slot : Nat) : Peer :=
  ⟨pygmyId dev slot, false, false, false⟩

/-- Outcome of one bind attempt in the init loop: the open event fired, the
error event fired with type unavailable-id, or the error event fired with any
other error type. -/
inductive BindOutcome : Type where
  | opened
  | unavailableId
  | otherError
deriving DecidableEq, Repr

/-- Log entry for one bind attempt: the slot attempted, what happened, and the
delay in milliseconds incurred before the promise resolved. -/
structure Attempt : Type where
  slot : Nat
  outcome : BindOutcome
  delay : Nat
deriving DecidableEq, Repr

/-- Result of the init slot loop: a peer was bound, all 10 slots were
exhausted, or the supplied event trace ran out while the loop was still
awaiting the next attempt's outcome at the given slot. -/
inductive LoopResult : Type where
  | bound : Peer → LoopResult
  | exhausted : LoopResult
  | pending : Nat → LoopResult
deriving DecidableEq, Repr

/-- The init slot-probing loop (p2pAtom.tsx lines 115-139), driven by a finite
trace of attempt outcomes. The while condition checks slot < 10 before each
attempt; unavailable-id advances the slot with no delay; any other error
resolves null after a 5000 ms delay without advancing the slot; open binds. -/
def slotLoopAux (dev : String) (slot : Nat) :
    List BindOutcome → LoopResult × List Attempt
  | [] => if slot < 10 then (.pending slot, []) else (.exhausted, [])
  | o :: rest =>
    if slot < 10 then
      match o with
      | .opened => (.bound (mkPeer dev slot), [⟨slot, .opened, 0⟩])
      | .unavailableId =>
        let r := slotLoopAux dev (slot + 1) rest
        (r.1, ⟨slot, .unavailableId, 0⟩ :: r.2)
      | .otherError =>
        let r := slotLoopAux dev slot rest
        (r.1, ⟨slot, .otherError, 5000⟩ :: r.2)
    else (.exhausted, [])

/-- Outcome of one outbound connect attempt: the 5 s expiry fired, the
connection errored, the handshake verdict arrived true (resolve the
connection), or it arrived false (the connection is closed, the timer is not
cleared, and the attempt resolves null when the expiry fires). -/
inductive ConnectOutcome : Type where
  | timeout
  | connError
  | verified
  | rejected
deriving DecidableEq, Repr

/-- Milliseconds until the attempt's promise resolves, bounded by the 5000 ms
expiry timer in every case. -/
def attemptDelay : ConnectOutcome → Nat
  | .timeout => 5000
  | .connError => 0
  | .verified => 0
  | .rejected => 5000

/-- Log entry for one outbound connect attempt. -/
structure CAttempt : Type where
  slot : Nat
  outcome : ConnectOutcome
  delay : Nat
deriving DecidableEq, Repr

/-- Result of the outbound connect loop: a verified connection (identified by
the host id it was opened to), no slot yielded one, or the event trace ran out
mid-loop. -/
inductive ConnResult : Type where
  | found : String → ConnResult
  | notFound : ConnResult
  | waiting : Nat → ConnResult
deriving DecidableEq, Repr

/-- The outbound connect loop (p2pAtom.tsx lines 181-218): slots 0..9 in
order, slot incremented after every attempt, stopping early only when an
attempt resolves with a verified connection. -/
def connectLoopAux (targetKey : String) (slot : Nat) :
    List ConnectOutcome → ConnResult × List CAttempt
  | [] => if slot < 10 then (.waiting slot, []) else (.notFound, [])
  | o :: rest =>
    if slot < 10 then
      match o with
      | .verified =>
        (.found (pygmyId targetKey slot), [⟨slot, .verified, attemptDelay .verified⟩])
      | o2 =>
        let r := connectLoopAux targetKey (slot + 1) rest
        (r.1, ⟨slot, o2, attemptDelay o2⟩ :: r.2)
    else (.notFound, [])

/-- Coordinator state: the stored peer (myPeerAtom) and the application-level
registry of published sessions (connectionAtom). -/
structure P2pState : Type where
  myPeer : Option Peer
  connections : List String
deriving DecidableEq, Repr

/-- The init command (p2pAtom.tsx lines 111-171): run the slot loop; on a
bound peer, register the fatal-error and inbound-connection handlers and store
the peer; otherwise (if (!peer) return) leave the state untouched. -/
def initCmd (st : P2pState) (dev : String) (trace : List BindOutcome) : P2pState :=
  match (slotLoopAux dev 0 trace).1 with
  | .bound p =>
    { st with myPeer := some { p with errorHandlerOn := true, connectionHandlerOn := true } }
  | _ => st

/-- The onVerify callback registered by the inbound-connection handler
(p2pAtom.tsx lines 159-165): on true, publish the connection to the
application registry; on false, close the channel. Returns the new state and
whether the channel was closed. -/
def connectionOnVerify (st : P2pState) (connId : String) (result : Bool) :
    P2pState × Bool :=
  if result then ({ st with connections := connId :: st.connections }, false)
  else (st, true)

/-- The connect command (p2pAtom.tsx lines 173-225): requires a stored peer
and a wallet public key; runs the connect loop; publishes the connection only
when the loop produced one (if (!conn) return). -/
def connectCmd (st : P2pState) (wallet : Option String) (targetKey : String)
    (trace : List ConnectOutcome) : P2pState :=
  match st.myPeer with
  | none => st
  | some _ =>
    match wallet with
    | none => st
    | some _ =>
      match (connectLoopAux targetKey 0 trace).1 with
      | .found c => { st with connections := c :: st.connections }
      | _ => st

/-- The destroy command (p2pAtom.tsx lines 227-236): if a peer is stored,
destroy it and clear the store; a no-op when no peer is stored. -/
def destroyCmd (st : P2pState) : P2pState :=
  match st.myPeer with
  | some _ => { st with myPeer := none }
  | none => st

/-- The fatal-error handler registered by init (p2pAtom.tsx lines 147-150):
when a peer with a registered error handler is stored, a transport error
dispatches the destroy command. -/
def onFatalError (st : P2pState) : P2pState :=
  match st.myPeer with
  | some p => if p.errorHandlerOn then destroyCmd st else st
  | none => st

/-- Claim C8: Destroy is idempotent and safe when already Offline: after one
destroy the stored peer is null, and a second consecutive destroy produces the
same end state with no error. -/
theorem destroy_idempotent (st : P2pState) :
    destroyCmd (destroyCmd st) = destroyCmd st ∧ (destroyCmd st).myPeer = none := by
  cases h : st.myPeer <;> simp [destroyCmd, h]

/-- Claim C10: an incoming payload whose type tag is neither challenge nor
verification, a verification with an empty message, or a challenge received
while no local device key is stored, each make the handler return with no
reply sent, no verdict reported, and the channel left open. -/
theorem handler_ignores_silently (store : Option Nat) (nonce : String)
    (pk : WStr) (m mc : WStr) (hm : m.isEmpty = true) :
    handleData store nonce pk .malformed = noEffect ∧
    handleData store nonce pk (.verification m) = noEffect ∧
    handleData none nonce pk (.challenge mc) = noEffect := by
  refine ⟨rfl, ?_, rfl⟩
  simp [handleData, hm]

theorem handler_ignores_silently_witness :
    handleData (some 5) "n" (.pkEnc 1) .malformed = noEffect ∧
    handleData (some 5) "n" (.pkEnc 1) (.verification (.raw "")) = noEffect ∧
    handleData none "n" (.pkEnc 1) (.challenge (.raw "some-nonempty-nonce")) = noEffect :=
  handler_ignores_silently (some 5) "n" (.pkEnc 1) (.raw "") (.raw "some-nonempty-nonce")
    (by decide)

/-- Claim C2 counterexample: a malformed incoming message does NOT close the
channel and does NOT report verified = false to the caller — the handler
silently ignores it, refuting the claim that every malformed message causes
channel closure and a failure report. -/
theorem handshake_failure_report_cex :
    handleData (some 7) "n" (.pkEnc 7) .malformed = noEffect ∧
    noEffect.closed = false ∧ noEffect.verdict = none :=
  ⟨rfl, rfl, rfl⟩

/-- Claim C2 as amended: a malformed message or a challenge arriving with no
local signing key is ignored silently (channel stays open, no verdict); an
exception while processing a verification (undecodable signature or claimed
key) closes the channel but reports no verdict to the caller; in no case does
the handler retry within the handshake. -/
theorem handshake_failure_amended (store : Option Nat) (nonce : String) (pk : WStr)
    (m : WStr) (hm : m.isEmpty = false)
    (hdec : bs58DecodeSig m = none ∨ decodePk pk = none) :
    handleData store nonce pk .malformed = noEffect ∧
    handleData none nonce pk (.challenge m) = noEffect ∧
    (handleData store nonce pk (.verification m)).closed = true ∧
    (handleData store nonce pk (.verification m)).verdict = none := by
  have key : handleData store nonce pk (.verification m) =
      { sent := none, verdict := none, closed := true } := by
    rcases hdec with h | h
    · simp [handleData, hm, h]
    · cases hs : bs58DecodeSig m <;> simp [handleData, hm, hs, h]
  exact ⟨rfl, rfl, by rw [key], by rw [key]⟩

theorem handshake_failure_amended_witness :
    handleData (some 7) "n" (.pkEnc 7) .malformed = noEffect ∧
    handleData none "n" (.pkEnc 7) (.challenge (.raw "garbage")) = noEffect ∧
    (handleData (some 7) "n" (.pkEnc 7) (.verification (.raw "garbage"))).closed = true ∧
    (handleData (some 7) "n" (.pkEnc 7) (.verification (.raw "garbage"))).verdict = none :=
  handshake_failure_amended (some 7) "n" (.pkEnc 7) (.raw "garbage") (by decide) (Or.inl rfl)

/-- Claim C6: the challenge branch signs the received nonce, and the
verification branch accepts exactly the genuine signature: the responder's
reply to the initiator's challenge verifies true against the claimed public
key, while a tampered nonce or a tampered signature verifies false. -/
theorem handshake_roundtrip (n n2 : String) (sk : Nat) (store : Option Nat)
    (respNonce : String) (rp : WStr) (sig : WStr × Nat)
    (hne : n2 ≠ n) (hsig : sig ≠ signDetached (.raw n) sk) :
    handleData (some sk) respNonce rp (onOpenSend n) =
      { sent := some (.verification (bs58EncodeSig (signDetached (.raw n) sk))),
        verdict := none, closed := false } ∧
    (handleData store n (.pkEnc (pubOf sk))
        (.verification (bs58EncodeSig (signDetached (.raw n) sk)))).verdict = some true ∧
    (handleData store n2 (.pkEnc (pubOf sk))
        (.verification (bs58EncodeSig (signDetached (.raw n) sk)))).verdict = some false ∧
    verifyDetached (.raw n) sig (pubOf sk) = false := by
  refine ⟨rfl, ?_, ?_, ?_⟩
  · simp [handleData, WStr.isEmpty, bs58EncodeSig, bs58DecodeSig, decodePk,
      signDetached, verifyDetached]
  · simp [handleData, WStr.isEmpty, bs58EncodeSig, bs58DecodeSig, decodePk,
      signDetached, verifyDetached, Ne.symm hne]
  · have h2 : sig.1 ≠ WStr.raw n ∨ sig.2 ≠ pubOf sk := by
      by_contra hc
      push_neg at hc
      exact hsig (Prod.ext hc.1 hc.2)
    rcases h2 with h | h <;> simp [verifyDetached, h]

theorem handshake_roundtrip_witness :
    handleData (some 3) "r" (.raw "x") (onOpenSend "a") =
      { sent := some (.verification (bs58EncodeSig (signDetached (.raw "a") 3))),
        verdict := none, closed := false } ∧
    (handleData none "a" (.pkEnc (pubOf 3))
        (.verification (bs58EncodeSig (signDetached (.raw "a") 3)))).verdict = some true ∧
    (handleData none "b" (.pkEnc (pubOf 3))
        (.verification (bs58EncodeSig (signDetached (.raw "a") 3)))).verdict = some false ∧
    verifyDetached (.raw "a") (.raw "z", 9) (pubOf 3) = false :=
  handshake_roundtrip "a" "b" 3 none "r" (.raw "x") (.raw "z", 9) (by decide) (by decide)

/-- Trace of the init loop when every attempt reports a non-unavailable-id
bind error: the loop stays at the same slot, logging a 5000 ms backoff per
attempt, and is still pending after the whole trace. -/
lemma slotLoop_otherError_replicate (dev : String) (slot : Nat) (h : slot < 10) :
    ∀ n : Nat, slotLoopAux dev slot (List.replicate n .otherError) =
      (.pending slot, List.replicate n ⟨slot, .otherError, 5000⟩) := by
  intro n
  induction n with
  | zero => simp [slotLoopAux, h]
  | succ k ih => simp [List.replicate_succ, slotLoopAux, h, ih]

/-- Claim C4 counterexample: after 1000 consecutive bind errors other than
identifier-already-in-use, the slot loop is still pending at slot 0 — it has
neither given up the slot nor terminated, and every one of the 1000 retries
incurred the 5000 ms backoff. This refutes the claimed overall attempt budget
and the claimed guaranteed termination. -/
theorem backoff_budget_cex :
    slotLoopAux "d" 0 (List.replicate 1000 BindOutcome.otherError) =
      (.pending 0, List.replicate 1000 ⟨0, .otherError, 5000⟩) :=
  slotLoop_otherError_replicate "d" 0 (by decide) 1000

/-- Claim C4 as amended: a bind error other than identifier-already-in-use
causes a fixed 5-second backoff and a retry of the same slot, with NO overall
attempt budget — the slot is retried indefinitely while such errors continue,
so the resolve loop does not terminate as long as they persist. -/
theorem backoff_no_budget (dev : String) (slot : Nat) (n : Nat) (h : slot < 10) :
    slotLoopAux dev slot (List.replicate n .otherError) =
      (.pending slot, List.replicate n ⟨slot, .otherError, 5000⟩) :=
  slotLoop_otherError_replicate dev slot h n

theorem backoff_no_budget_witness :
    slotLoopAux "d" 3 (List.replicate 2 .otherError) =
      (.pending 3, List.replicate 2 ⟨3, .otherError, 5000⟩) :=
  backoff_no_budget "d" 3 2 (by decide)

/-- Slot reached after one attempt: advance on unavailable-id, stay otherwise. -/
def nextSlot (s : Nat) : BindOutcome → Nat
  | .unavailableId => s + 1
  | _ => s

/-- Delay incurred by one bind attempt: 5000 ms backoff on a generic error,
none otherwise. -/
def bindDelay : BindOutcome → Nat
  | .otherError => 5000
  | _ => 0

/-- Structural invariant of the init loop's attempt log starting from slot s:
each entry records the running slot and its outcome's delay, and the running
slot evolves by nextSlot. -/
def LogShape : Nat → List Attempt → Prop
  | _, [] => True
  | s, a :: rest =>
      a.slot = s ∧ a.delay = bindDelay a.outcome ∧ LogShape (nextSlot s a.outcome) rest

lemma nextSlot_ge (s : Nat) (o : BindOutcome) : s ≤ nextSlot s o := by
  cases o <;> simp [nextSlot]

lemma slotLoop_logShape (dev : String) :
    ∀ (trace : List BindOutcome) (slot : Nat),
      LogShape slot (slotLoopAux dev slot trace).2 := by
  intro trace
  induction trace with
  | nil =>
    intro slot
    by_cases h : slot < 10 <;> simp [slotLoopAux, h, LogShape]
  | cons o rest ih =>
    intro slot
    by_cases h : slot < 10
    · cases o <;>
        simp [slotLoopAux, h, LogShape, bindDelay, nextSlot] <;> exact ih _
    · simp [slotLoopAux, h, LogShape]

lemma logShape_lb :
    ∀ (l : List Attempt) (s : Nat), LogShape s l → ∀ a ∈ l, s ≤ a.slot := by
  intro l
  induction l with
  | nil => simp
  | cons a rest ih =>
    intro s h b hb
    obtain ⟨h1, _, h3⟩ := h
    rcases List.mem_cons.mp hb with rfl | hb2
    · omega
    · exact le_trans (nextSlot_ge s a.outcome) (ih _ h3 b hb2)

lemma logShape_pairwise :
    ∀ (l : List Attempt) (s : Nat), LogShape s l →
      l.Pairwise (fun a b => a.slot ≤ b.slot ∧ (a.outcome = .unavailableId → a.slot < b.slot)) := by
  intro l
  induction l with
  | nil => simp
  | cons a rest ih =>
    intro s h
    obtain ⟨h1, _, h3⟩ := h
    refine List.Pairwise.cons ?_ (ih _ h3)
    intro b hb
    have hb2 := logShape_lb rest _ h3 b hb
    refine ⟨le_trans (h1 ▸ nextSlot_ge s a.outcome) hb2, ?_⟩
    intro ho
    have : nextSlot s a.outcome = s + 1 := by rw [ho]; rfl
    omega

lemma logShape_head (l : List Attempt) (s : Nat) (h : LogShape s l) :
    ∀ hne : l ≠ [], (l.head hne).slot = s := by
  cases l with
  | nil => intro hne; exact absurd rfl hne
  | cons a rest => intro _; exact h.1

lemma logShape_delay :
    ∀ (l : List Attempt) (s : Nat), LogShape s l →
      ∀ a ∈ l, a.delay = bindDelay a.outcome := by
  intro l
  induction l with
  | nil => simp
  | cons a rest ih =>
    intro s h b hb
    obtain ⟨_, h2, h3⟩ := h
    rcases List.mem_cons.mp hb with rfl | hb2
    · exact h2
    · exact ih _ h3 b hb2

/-- Claim C5: the init loop attempts slots in ascending order starting at
slot 0 — the logged slots never decrease, an attempt that reported
identifier-already-in-use incurred no delay, and every attempt after it is on
a strictly higher slot (the slot is never re-attempted). -/
theorem slots_ascending (dev : String) (trace : List BindOutcome) :
    ((slotLoopAux dev 0 trace).2).Pairwise
      (fun a b => a.slot ≤ b.slot ∧ (a.outcome = .unavailableId → a.slot < b.slot)) ∧
    (∀ a ∈ (slotLoopAux dev 0 trace).2, a.outcome = .unavailableId → a.delay = 0) ∧
    ∀ h2 : (slotLoopAux dev 0 trace).2 ≠ [],
      ((slotLoopAux dev 0 trace).2.head h2).slot = 0 := by
  have hs := slotLoop_logShape dev trace 0
  refine ⟨logShape_pairwise _ 0 hs, ?_, ?_⟩
  · intro a ha ho
    have := logShape_delay _ 0 hs a ha
    rw [this, ho]
    rfl
  · exact logShape_head _ 0 hs

theorem slots_ascending_witness :
    ((slotLoopAux "d" 0 [BindOutcome.unavailableId, .otherError, .opened]).2).Pairwise
      (fun a b => a.slot ≤ b.slot ∧ (a.outcome = .unavailableId → a.slot < b.slot)) ∧
    (∀ a ∈ (slotLoopAux "d" 0 [BindOutcome.unavailableId, .otherError, .opened]).2,
      a.outcome = .unavailableId → a.delay = 0) ∧
    ∀ h2 : (slotLoopAux "d" 0 [BindOutcome.unavailableId, .otherError, .opened]).2 ≠ [],
      ((slotLoopAux "d" 0 [BindOutcome.unavailableId, .otherError, .opened]).2.head h2).slot = 0 :=
  slots_ascending "d" [BindOutcome.unavailableId, .otherError, .opened]

/-- Probing k remaining slots that all report identifier-already-in-use
exhausts the loop once the slot counter reaches 10. -/
lemma slotLoop_unavailable_all (dev : String) :
    ∀ (k slot : Nat), slot + k = 10 →
      (slotLoopAux dev slot (List.replicate k .unavailableId)).1 = .exhausted := by
  intro k
  induction k with
  | zero =>
    intro slot h
    have : slot = 10 := by omega
    subst this
    simp [slotLoopAux]
  | succ j ih =>
    intro slot h
    have h10 : slot < 10 := by omega
    simp [List.replicate_succ, slotLoopAux, h10]
    exact ih (slot + 1) (by omega)

/-- Claim C7: when slot probing exhausts all 10 slots (each declared
identifier-already-in-use), init leaves the coordinator state untouched — the
stored peer stays null and no handlers are registered — and init is a total
function of the outcome trace (no crash). -/
theorem init_exhausted_noop (st : P2pState) (dev : String) :
    (slotLoopAux dev 0 (List.replicate 10 .unavailableId)).1 = .exhausted ∧
    ∀ trace : List BindOutcome,
      (slotLoopAux dev 0 trace).1 = .exhausted → initCmd st dev trace = st := by
  refine ⟨slotLoop_unavailable_all dev 10 0 rfl, ?_⟩
  intro trace h
  simp [initCmd, h]

theorem init_exhausted_noop_witness :
    initCmd ⟨none, []⟩ "d" (List.replicate 10 .unavailableId) = ⟨none, []⟩ :=
  (init_exhausted_noop ⟨none, []⟩ "d").2 _ (init_exhausted_noop ⟨none, []⟩ "d").1

/-- When no attempt verifies and the trace covers the remaining slots, the
connect loop walks every slot up to 9, each attempt bounded by the 5000 ms
expiry, and ends with notFound. -/
lemma connectLoop_notFound (k : String) :
    ∀ (trace : List ConnectOutcome) (slot : Nat),
      (∀ o ∈ trace, o ≠ ConnectOutcome.verified) → 10 - slot ≤ trace.length →
      (connectLoopAux k slot trace).1 = .notFound ∧
      ((connectLoopAux k slot trace).2).map (fun a => a.slot) =
        List.range' slot (10 - slot) ∧
      ∀ a ∈ (connectLoopAux k slot trace).2, a.delay ≤ 5000 := by
  intro trace
  induction trace with
  | nil =>
    intro slot _ h3
    have h : ¬ slot < 10 := by simp at h3; omega
    simp [connectLoopAux, h]
    omega
  | cons o rest ih =>
    intro slot h2 h3
    by_cases h10 : slot < 10
    · have ho : o ≠ .verified := h2 o (List.mem_cons_self o rest)
      have hrest : ∀ x ∈ rest, x ≠ ConnectOutcome.verified :=
        fun x hx => h2 x (List.mem_cons_of_mem o hx)
      have hlen : 10 - (slot + 1) ≤ rest.length := by
        simp at h3
        omega
      obtain ⟨e1, e2, e3⟩ := ih (slot + 1) hrest hlen
      have hrange : List.range' slot (10 - slot) =
          slot :: List.range' (slot + 1) (10 - (slot + 1)) := by
        have : 10 - slot = (10 - (slot + 1)) + 1 := by omega
        rw [this, List.range'_succ]
      cases o with
      | verified => exact absurd rfl ho
      | timeout =>
        refine ⟨?_, ?_, ?_⟩ <;>
          simp [connectLoopAux, h10, e1, e2, hrange, attemptDelay]
        intro a ha
        exact e3 a ha
      | connError =>
        refine ⟨?_, ?_, ?_⟩ <;>
          simp [connectLoopAux, h10, e1, e2, hrange, attemptDelay]
        intro a ha
        exact e3 a ha
      | rejected =>
        refine ⟨?_, ?_, ?_⟩ <;>
          simp [connectLoopAux, h10, e1, e2, hrange, attemptDelay]
        intro a ha
        exact e3 a ha
    · have : 10 - slot = 0 := by omega
      simp [connectLoopAux, h10, this]

/-- Claim C3: with no listener on any slot (every attempt ends in the 5 s
expiry or a transport error) and a trace of 10 attempt outcomes, the connect
loop makes exactly 10 attempts on slots 0 through 9, each bounded by the
5000 ms per-attempt timeout, returns notFound, and the connect command
publishes no session (the state is unchanged). -/
theorem connect_notFound_ten_attempts (k : String) (trace : List ConnectOutcome)
    (st : P2pState) (w : Option String)
    (h1 : ∀ o ∈ trace, o = ConnectOutcome.timeout ∨ o = ConnectOutcome.connError)
    (h2 : trace.length = 10) :
    (connectLoopAux k 0 trace).1 = .notFound ∧
    (connectLoopAux k 0 trace).2.length = 10 ∧
    ((connectLoopAux k 0 trace).2).map (fun a => a.slot) = List.range 10 ∧
    (∀ a ∈ (connectLoopAux k 0 trace).2, a.delay ≤ 5000) ∧
    connectCmd st w k trace = st := by
  have hnv : ∀ o ∈ trace, o ≠ ConnectOutcome.verified := by
    intro o ho
    rcases h1 o ho with h | h <;> simp [h]
  obtain ⟨e1, e2, e3⟩ := connectLoop_notFound k trace 0 hnv (by omega)
  refine ⟨e1, ?_, ?_, e3, ?_⟩
  · have := congrArg List.length e2
    simpa using this
  · rw [List.range_eq_range']
    simpa using e2
  · cases hm : st.myPeer with
    | none => simp [connectCmd, hm]
    | some p =>
      cases hw : w with
      | none => simp [connectCmd, hm, hw]
      | some wk => simp [connectCmd, hm, hw, e1]

theorem connect_notFound_ten_attempts_witness :
    (connectLoopAux "k" 0 (List.replicate 10 .timeout)).1 = .notFound ∧
    (connectLoopAux "k" 0 (List.replicate 10 .timeout)).2.length = 10 ∧
    ((connectLoopAux "k" 0 (List.replicate 10 .timeout)).2).map (fun a => a.slot) =
      List.range 10 ∧
    (∀ a ∈ (connectLoopAux "k" 0 (List.replicate 10 .timeout)).2, a.delay ≤ 5000) ∧
    connectCmd ⟨none, []⟩ none "k" (List.replicate 10 .timeout) = ⟨none, []⟩ :=
  connect_notFound_ten_attempts "k" (List.replicate 10 .timeout) ⟨none, []⟩ none
    (by decide) (by decide)

/-- If the connect loop produced a connection, some logged attempt resolved
through the onVerify(true) branch and the connection is the one opened to
that attempt's slot. -/
lemma connectLoop_found_verified (k : String) :
    ∀ (trace : List ConnectOutcome) (slot : Nat) (c : String),
      (connectLoopAux k slot trace).1 = .found c →
      ∃ a ∈ (connectLoopAux k slot trace).2,
        a.outcome = ConnectOutcome.verified ∧ c = pygmyId k a.slot := by
  intro trace
  induction trace with
  | nil =>
    intro slot c h
    by_cases h10 : slot < 10 <;> simp [connectLoopAux, h10] at h
  | cons o rest ih =>
    intro slot c h
    by_cases h10 : slot < 10
    · cases o with
      | verified =>
        simp only [connectLoopAux, if_pos h10] at h ⊢
        injection h with h2
        exact ⟨⟨slot, .verified, attemptDelay .verified⟩,
          List.mem_singleton_self _, rfl, h2.symm⟩
      | timeout =>
        simp only [connectLoopAux, if_pos h10] at h ⊢
        obtain ⟨a, ha, h1, h2⟩ := ih (slot + 1) c h
        exact ⟨a, List.mem_cons_of_mem _ ha, h1, h2⟩
      | connError =>
        simp only [connectLoopAux, if_pos h10] at h ⊢
        obtain ⟨a, ha, h1, h2⟩ := ih (slot + 1) c h
        exact ⟨a, List.mem_cons_of_mem _ ha, h1, h2⟩
      | rejected =>
        simp only [connectLoopAux, if_pos h10] at h ⊢
        obtain ⟨a, ha, h1, h2⟩ := ih (slot + 1) c h
        exact ⟨a, List.mem_cons_of_mem _ ha, h1, h2⟩
    · simp [connectLoopAux, h10] at h

/-- Claim C1: a session reaches the application layer only through a
verified handshake. Inbound, the onVerify callback leaves the state unchanged
and closes the channel on false, and publishes only when the result is true.
Outbound, a connection produced by the connect loop always stems from an
attempt whose handshake verified true, and when no slot verified the connect
command publishes nothing. -/
theorem verified_only_published (st : P2pState) (cid : String) (r : Bool)
    (w : Option String) (k : String) (slot : Nat) (trace : List ConnectOutcome)
    (c : String) :
    (connectionOnVerify st cid false).1 = st ∧
    (connectionOnVerify st cid false).2 = true ∧
    ((connectionOnVerify st cid r).1.connections ≠ st.connections → r = true) ∧
    ((connectLoopAux k slot trace).1 = .found c →
      ∃ a ∈ (connectLoopAux k slot trace).2,
        a.outcome = ConnectOutcome.verified ∧ c = pygmyId k a.slot) ∧
    ((∀ c2, (connectLoopAux k 0 trace).1 ≠ .found c2) →
      connectCmd st w k trace = st) := by
  refine ⟨rfl, rfl, ?_, connectLoop_found_verified k trace slot c, ?_⟩
  · intro hne
    cases r with
    | true => rfl
    | false => exact absurd rfl hne
  · intro hnf
    cases hm : st.myPeer with
    | none => simp [connectCmd, hm]
    | some p =>
      cases hw : w with
      | none => simp [connectCmd, hm, hw]
      | some wk =>
        cases hr : (connectLoopAux k 0 trace).1 with
        | found c2 => exact absurd hr (hnf c2)
        | notFound => simp [connectCmd, hm, hw, hr]
        | waiting s2 => simp [connectCmd, hm, hw, hr]

theorem verified_only_published_witness :
    ∃ a ∈ (connectLoopAux "k" 0 [ConnectOutcome.verified]).2,
      a.outcome = ConnectOutcome.verified ∧ pygmyId "k" 0 = pygmyId "k" a.slot :=
  (verified_only_published ⟨none, []⟩ "c" true none "k" 0 [ConnectOutcome.verified]
    (pygmyId "k" 0)).2.2.2.1 rfl

/-- Claim C9: a successful init stores the bound peer with the fatal-error
handler registered, and a fatal transport error then runs the destroy
command, clearing the stored peer (presence Offline). -/
theorem init_fatal_error_destroys (st : P2pState) (dev : String)
    (trace : List BindOutcome) (p : Peer)
    (h : (slotLoopAux dev 0 trace).1 = .bound p) :
    (initCmd st dev trace).myPeer =
      some { p with errorHandlerOn := true, connectionHandlerOn := true } ∧
    (∃ q, (initCmd st dev trace).myPeer = some q ∧ q.errorHandlerOn = true) ∧
    onFatalError (initCmd st dev trace) = destroyCmd (initCmd st dev trace) ∧
    (onFatalError (initCmd st dev trace)).myPeer = none := by
  have hi : initCmd st dev trace = { st with
      myPeer := some ({ p with errorHandlerOn := true, connectionHandlerOn := true }) } := by
    simp [initCmd, h]
  refine ⟨by rw [hi],
    ⟨{ p with errorHandlerOn := true, connectionHandlerOn := true }, by rw [hi], rfl⟩,
    ?_, ?_⟩ <;>
    simp [hi, onFatalError, destroyCmd]

theorem init_fatal_error_destroys_witness :
    (initCmd ⟨none, []⟩ "d" [BindOutcome.opened]).myPeer =
      some { mkPeer "d" 0 with errorHandlerOn := true, connectionHandlerOn := true } ∧
    (∃ q, (initCmd ⟨none, []⟩ "d" [BindOutcome.opened]).myPeer = some q ∧
      q.errorHandlerOn = true) ∧
    onFatalError (initCmd ⟨none, []⟩ "d" [BindOutcome.opened]) =
      destroyCmd (initCmd ⟨none, []⟩ "d" [BindOutcome.opened]) ∧
    (onFatalError (initCmd ⟨none, []⟩ "d" [BindOutcome.opened])).myPeer = none :=
  init_fatal_error_destroys ⟨none, []⟩ "d" [BindOutcome.opened] (mkPeer "d" 0) rfl

end P2pTrade
